import Mathlib

/-!
Shallow embedding of `src/PyOutputToolExample/PyOutputToolExampleEngine.py`.

The plugin receives records from the Alteryx host and writes them to a CSV
file, buffering one list per column and flushing every 1,000,000 rows.
External collaborators (the host engine, the `xml` library, the filesystem,
the `csv` writer) are modelled as explicit inputs and outputs:
* messages sent through `alteryx_engine.output_message` are collected in a
  returned `List Msg`;
* the CSV file at the configured path is a `List (List String)` of rows,
  threaded through the functions that append to it;
* `os.access(path, os.F_OK)` is an input predicate `fs_exists`;
* a record (`in_record` read through `record_info_in[i].get_as_string`) is a
  function from field index to the field's optional string value;
* Python exceptions are the error side of `Except PyExc`.
-/

namespace PyOut

/-- Host message severities used by the code (`EngineMessageType.error` and
`Status.file_output`). -/
inductive MsgType where
  | error
  | fileOutput
deriving DecidableEq

/-- A message sent to the host via `output_message(n_tool_id, type, text)`. -/
structure Msg where
  tool : Nat
  mtype : MsgType
  text : String
deriving DecidableEq

/-- Python exceptions the modelled code can raise: `TypeError` from
`open(None, ...)`, `IndexError` from `field_lists[i]` out of range,
`AttributeError` from `None.text` / `None.num_fields`. -/
inductive PyExc where
  | typeError
  | indexError
  | attributeError
deriving DecidableEq

/-- State of `AyxPlugin`.  `initFlag` models the Python attribute set to
`False` in `__init__` (spelled differently because of a lint); the code never
reads or updates it. -/
structure AyxPlugin where
  n_tool_id : Nat
  name : String
  initFlag : Bool
  str_file_path : Option String
deriving DecidableEq

/-- `AyxPlugin.__init__` (the engine handles are external and not stored). -/
def mkPlugin (n_tool_id : Nat) : AyxPlugin :=
  { n_tool_id := n_tool_id
    name := "PyOutputToolExample_" ++ toString n_tool_id
    initFlag := false
    str_file_path := none }

/-- `AyxPlugin.xmsg`: identity placeholder for localization. -/
def AyxPlugin.xmsg (_s : AyxPlugin) (msg_string : String) : String :=
  msg_string

/-- `AyxPlugin.pi_init`.  XML parsing is done by the external `xml` library;
`find_fileOutputPath` models `root.find('fileOutputPath')` mapped to its
`.text`: `none` when the element is missing (so `.text` raises
`AttributeError`, which the code reports and then re-raises with `raise`),
`some t` when the element is present with optional text `t`. -/
def pi_init (s : AyxPlugin) (str_xml : String) (find_fileOutputPath : Option (Option String)) :
    List Msg × Except PyExc AyxPlugin :=
  match find_fileOutputPath with
  | some t => ([], Except.ok { s with str_file_path := t })
  | none =>
      ([Msg.mk s.n_tool_id MsgType.error (s.xmsg ("Invalid XML: " ++ str_xml))],
        Except.error PyExc.attributeError)

/-- `AyxPlugin.pi_add_outgoing_connection`: accepts unconditionally. -/
def pi_add_outgoing_connection (_s : AyxPlugin) (_str_name : String) : Bool :=
  true

/-- `AyxPlugin.pi_push_all_records`: no upstream connection, reports an error
and returns failure. -/
def pi_push_all_records (s : AyxPlugin) (_n_record_limit : Int) : List Msg × Bool :=
  ([Msg.mk s.n_tool_id MsgType.error (s.xmsg "Missing Incoming Connection")], false)

/-- Length of the shortest list (0 when there are none): the number of rows
produced by Python's `zip(*field_lists)`. -/
def minLen : List (List String) → Nat
  | [] => 0
  | l :: ls => ls.foldl (fun acc t => min acc t.length) l.length

/-- `zip(*field_lists)`: the i-th output row holds the i-th entry of every
buffer, for every i below every buffer's length. -/
def zipRows (ls : List (List String)) : List (List String) :=
  (List.range (minLen ls)).map (fun i => ls.map (fun l => l.getD i ""))

/-- `AyxPlugin.write_lists_to_csv`: appends `zip(*field_lists)` as rows to
the file at `file_temp_path` and clears every buffer in place
(`del sublist[:]`).  `open(None, 'a', ...)` raises `TypeError`.  The file
argument and first result component model the contents of the file at the
configured path (fixed for the life of the stream). -/
def write_lists_to_csv (file_temp_path : Option String) (file : List (List String))
    (field_lists : List (List String)) :
    Except PyExc (List (List String) × List (List String)) :=
  match file_temp_path with
  | none => Except.error PyExc.typeError
  | some _ => Except.ok (file ++ zipRows field_lists, field_lists.map (fun _ => []))

/-- Incoming record metadata: the ordered field names
(`record_info_in.num_fields` is `fields.length`). -/
structure RecordInfo where
  fields : List String
deriving DecidableEq

/-- State of `IncomingInterface` (the `parent` back-reference carries the
configured path and the tool id). -/
structure IIState where
  parent : AyxPlugin
  record_info_in : Option RecordInfo
  field_names : Option (List String)
  field_lists : List (List String)
  counter : Nat
deriving DecidableEq

/-- `IncomingInterface.__init__`. -/
def mkII (parent : AyxPlugin) : IIState :=
  { parent := parent
    record_info_in := none
    field_names := none
    field_lists := []
    counter := 0 }

/-- The instance attribute `self.special_chars = set('/;?*"<>|')`: assigned
once in `__init__` and never reassigned, modelled as a constant. -/
def special_chars : List Char := "/;?*\"<>|".toList

/-- `IncomingInterface.ii_init`: stores the metadata, appends one
`[field name]` buffer per field, runs the four independent path checks (each
possibly emitting an error message), and returns `True` unconditionally. -/
def ii_init (s : IIState) (record_info_in : RecordInfo) (fs_exists : String → Bool) :
    IIState × List Msg × Bool :=
  let s1 : IIState := { s with
    record_info_in := some record_info_in
    field_lists := s.field_lists ++ record_info_in.fields.map (fun n => [n]) }
  let p := s1.parent
  let m1 : List Msg :=
    match p.str_file_path with
    | some fp =>
        if fs_exists fp then
          [Msg.mk p.n_tool_id MsgType.error
            (p.xmsg ("Error: " ++ fp ++ " already exists. Please enter a different path."))]
        else []
    | none => []
  let m2 : List Msg :=
    match p.str_file_path with
    | some fp =>
        if fp.length > 259 then
          [Msg.mk p.n_tool_id MsgType.error (p.xmsg "Maximum path length is 259")]
        else []
    | none => []
  let m3 : List Msg :=
    match p.str_file_path with
    | some fp =>
        if fp.toList.any (fun c => special_chars.contains c) then
          [Msg.mk p.n_tool_id MsgType.error
            (p.xmsg "These characters are not allowed in the filename: /;?*\"<>|")]
        else []
    | none => []
  let m4 : List Msg :=
    match p.str_file_path with
    | some fp =>
        if fp.length = 0 then
          [Msg.mk p.n_tool_id MsgType.error (p.xmsg "Enter a filename")]
        else []
    | none => [Msg.mk p.n_tool_id MsgType.error (p.xmsg "Enter a filename")]
  (s1, m1 ++ m2 ++ m3 ++ m4, true)

/-- `field_lists[i].append(v)`: `none` models the `IndexError` raised when
`i` is out of range. -/
def setAppend (lists : List (List String)) (i : Nat) (v : String) :
    Option (List (List String)) :=
  match lists, i with
  | [], _ => none
  | l :: t, 0 => some ((l ++ [v]) :: t)
  | l :: t, i + 1 => (setAppend t i v).map (fun r => l :: r)

/-- The `for field in range(num_fields)` loop body of `ii_push_record`,
processing fields `i, i+1, ..., i+k-1`: appends the field's string value
(`''` when the value is null) to the field's buffer. -/
def pushFieldsFrom (row : Nat → Option String) :
    List (List String) → Nat → Nat → Except PyExc (List (List String))
  | lists, _, 0 => Except.ok lists
  | lists, i, k + 1 =>
    match setAppend lists i ((row i).getD "") with
    | none => Except.error PyExc.indexError
    | some l2 => pushFieldsFrom row l2 (i + 1) k

/-- `IncomingInterface.ii_push_record`: increments the counter, appends every
field's value to its buffer, and flushes (then resets the counter) when the
counter reaches 1,000,000.  Returns `True` when no exception is raised. -/
def ii_push_record (s : IIState) (file : List (List String)) (in_record : Nat → Option String) :
    Except PyExc (IIState × List (List String) × Bool) :=
  match s.record_info_in with
  | none => Except.error PyExc.attributeError
  | some ri =>
    let c := s.counter + 1
    match pushFieldsFrom in_record s.field_lists 0 ri.fields.length with
    | Except.error e => Except.error e
    | Except.ok fl =>
      if c = 1000000 then
        match write_lists_to_csv s.parent.str_file_path file fl with
        | Except.error e => Except.error e
        | Except.ok (f2, fl2) =>
            Except.ok ({ s with counter := 0, field_lists := fl2 }, f2, true)
      else
        Except.ok ({ s with counter := c, field_lists := fl }, file, true)

/-- `IncomingInterface.ii_update_progress`: forwards the fraction to the
host's progress channel (`output_tool_progress(n_tool_id, d_percent)`); the
forwarded pair is returned, the state is untouched. -/
def ii_update_progress (s : IIState) (d_percent : Float) : IIState × Nat × Float :=
  (s, s.parent.n_tool_id, d_percent)

/-- `IncomingInterface.ii_close`: reads `field_lists[0]` (raising
`IndexError` when there is no buffer), flushes when that buffer holds more
than one entry, then emits the completion notice when a path is configured. -/
def ii_close (s : IIState) (file : List (List String)) :
    Except PyExc (IIState × List (List String) × List Msg) :=
  match s.field_lists with
  | [] => Except.error PyExc.indexError
  | l0 :: _ =>
    let step : Except PyExc (IIState × List (List String)) :=
      if l0.length > 1 then
        match write_lists_to_csv s.parent.str_file_path file s.field_lists with
        | Except.error e => Except.error e
        | Except.ok (f2, fl2) => Except.ok ({ s with field_lists := fl2 }, f2)
      else
        Except.ok (s, file)
    match step with
    | Except.error e => Except.error e
    | Except.ok (s2, f2) =>
      match s.parent.str_file_path with
      | some p =>
          Except.ok (s2, f2,
            [Msg.mk s.parent.n_tool_id MsgType.fileOutput
              (s.parent.xmsg (p ++ "|" ++ p ++ " was created."))])
      | none => Except.ok (s2, f2, [])

/-- Sequence of host-driven `ii_push_record` calls, one per incoming row. -/
def runPushes :
    List (Nat → Option String) → IIState → List (List String) →
      Except PyExc (IIState × List (List String))
  | [], s, file => Except.ok (s, file)
  | r :: rest, s, file =>
    match ii_push_record s file r with
    | Except.error e => Except.error e
    | Except.ok (s2, f2, _) => runPushes rest s2 f2

/-- Sink state right after `__init__` and `ii_init`, for a plugin whose
`pi_init` stored `path`. -/
def postInit (path : String) (names : List String) (fs_exists : String → Bool) : IIState :=
  (ii_init (mkII { mkPlugin 1 with str_file_path := some path }) ⟨names⟩ fs_exists).1

/-- A full host-driven stream: `pi_init`, `ii_init` on an empty (fresh) output
file, the pushes, then `ii_close`. -/
def runStream (find_fileOutputPath : Option (Option String)) (names : List String)
    (fs_exists : String → Bool) (rows : List (Nat → Option String)) :
    Except PyExc (IIState × List (List String) × List Msg) :=
  match (pi_init (mkPlugin 1) "" find_fileOutputPath).2 with
  | Except.error e => Except.error e
  | Except.ok plugin =>
    match runPushes rows (ii_init (mkII plugin) ⟨names⟩ fs_exists).1 [] with
    | Except.error e => Except.error e
    | Except.ok (s2, f2) => ii_close s2 f2

/-- A record whose every field is null (each value is written as `''`). -/
def r0 : Nat → Option String := fun _ => none

/-- Uniform buffer length after `N` pushes from a fresh `ii_init` state:
header plus one entry per row until the first flush, then only the rows
received since the last flush (flushing clears the headers too). -/
def lenAt (N : Nat) : Nat :=
  if N < 1000000 then N + 1 else N % 1000000

/-- Number of rows in the output file after `N` pushes from a fresh `ii_init`
state over an empty file: nothing before the first flush, then one header row
plus 1,000,000 rows per completed chunk. -/
def fileLenAt (N : Nat) : Nat :=
  if N < 1000000 then 0 else 1000000 * (N / 1000000) + 1

/-- The plugin produced by `pi_init` configuring path `out.csv`. -/
def P1 : AyxPlugin :=
  { n_tool_id := 1
    name := "PyOutputToolExample_1"
    initFlag := false
    str_file_path := some "out.csv" }

/-- The single column buffer after `N` pushes of `r0` on the one-field
schema `["f"]`. -/
def colAt (N : Nat) : List String :=
  if N < 1000000 then "f" :: List.replicate N "" else List.replicate (N % 1000000) ""

/-- The output file after `N` pushes of `r0` on schema `["f"]`. -/
def fileAt1 (N : Nat) : List (List String) :=
  if N < 1000000 then []
  else ["f"] :: List.replicate (1000000 * (N / 1000000)) [""]

/-- The sink state after `N` pushes of `r0` on schema `["f"]` with path
`out.csv`. -/
def S1 (N : Nat) : IIState :=
  { parent := P1
    record_info_in := some ⟨["f"]⟩
    field_names := none
    field_lists := [colAt N]
    counter := N % 1000000 }

/-- Sink state about to receive its 1,000,000th buffered row with no path
configured. -/
def sW5push : IIState :=
  { parent := mkPlugin 3
    record_info_in := some ⟨["f"]⟩
    field_names := none
    field_lists := [["f"]]
    counter := 999999 }

/-- Sink state holding one unflushed row with no path configured. -/
def sW5close : IIState :=
  { parent := mkPlugin 3
    record_info_in := some ⟨["f"]⟩
    field_names := none
    field_lists := [["f", "x"]]
    counter := 1 }

/-- Sink state whose configured path contains a disallowed character. -/
def sW7 : IIState :=
  mkII { mkPlugin 1 with str_file_path := some "a/b" }

/-- A 260-character path. -/
def longPath : String :=
  String.mk (List.replicate 260 'a')

/-- Sink state whose configured path has 260 characters. -/
def sW8 : IIState :=
  mkII { mkPlugin 1 with str_file_path := some longPath }

/-- Sink state with a configured path and a single header-only buffer. -/
def sW9 : IIState :=
  { parent := P1
    record_info_in := some ⟨["f"]⟩
    field_names := none
    field_lists := [["f"]]
    counter := 0 }

theorem errExists_length (fp : String) :
    ("Error: " ++ fp ++ " already exists. Please enter a different path.").length
      = fp.length + 54 := by
  rw [String.length_append, String.length_append]
  have h1 : ("Error: " : String).length = 7 := by decide
  have h2 : (" already exists. Please enter a different path." : String).length = 47 := by
    decide
  omega

theorem errExists_head (fp : String) :
    ("Error: " ++ fp ++ " already exists. Please enter a different path.").data.head?
      = some 'E' := by
  rw [String.data_append, String.data_append]
  have h1 : ("Error: " : String).data = 'E' :: "rror: ".data := rfl
  rw [h1]
  rfl

theorem errExists_ne_enter (fp : String) :
    "Error: " ++ fp ++ " already exists. Please enter a different path."
      ≠ "Enter a filename" := by
  intro h
  have hl := congrArg String.length h
  rw [errExists_length] at hl
  have h2 : ("Enter a filename" : String).length = 16 := by decide
  omega

theorem errExists_ne_chars (fp : String) :
    "Error: " ++ fp ++ " already exists. Please enter a different path."
      ≠ "These characters are not allowed in the filename: /;?*\"<>|" := by
  intro h
  have hh := congrArg (fun t => t.data.head?) h
  simp only [errExists_head] at hh
  have h2 : ("These characters are not allowed in the filename: /;?*\"<>|" : String).data.head?
      = some 'T' := rfl
  rw [h2] at hh
  simp at hh

theorem errExists_ne_max (fp : String) :
    "Error: " ++ fp ++ " already exists. Please enter a different path."
      ≠ "Maximum path length is 259" := by
  intro h
  have hh := congrArg (fun t => t.data.head?) h
  simp only [errExists_head] at hh
  have h2 : ("Maximum path length is 259" : String).data.head? = some 'M' := rfl
  rw [h2] at hh
  simp at hh

/-- C3 (counterexample): on a configuration without a `fileOutputPath`
element, `pi_init` does not return normally: it reports the invalid-XML error
and the call ends with the re-raised `AttributeError`. -/
theorem C3_counterexample :
    (pi_init (mkPlugin 1) "<Configuration></Configuration>" none).2 =
        Except.error PyExc.attributeError ∧
    (pi_init (mkPlugin 1) "<Configuration></Configuration>" none).1 =
      [Msg.mk 1 MsgType.error "Invalid XML: <Configuration></Configuration>"] := by
  exact ⟨rfl, by decide⟩

/-- C3 (amended): when the configuration has no `fileOutputPath` element,
`pi_init` reports the `Invalid XML` error message to the host and then
propagates the exception (the `except` block ends in `raise`); it does not
return normally. -/
theorem C3_report_then_raise (s : AyxPlugin) (str_xml : String) :
    pi_init s str_xml none =
      ([Msg.mk s.n_tool_id MsgType.error (s.xmsg ("Invalid XML: " ++ str_xml))],
        Except.error PyExc.attributeError) := rfl

/-- C4: `ii_init` returns `True` whatever the configured path is, and the
`Enter a filename` error is emitted exactly when the configured path is
`None` or empty. -/
theorem C4_ii_init_advisory (s : IIState) (ri : RecordInfo) (fs_exists : String → Bool) :
    (ii_init s ri fs_exists).2.2 = true ∧
    (Msg.mk s.parent.n_tool_id MsgType.error "Enter a filename" ∈ (ii_init s ri fs_exists).2.1 ↔
      (s.parent.str_file_path = none ∨
        ∃ p, s.parent.str_file_path = some p ∧ p.length = 0)) := by
  refine ⟨rfl, ?_⟩
  cases hp : s.parent.str_file_path with
  | none => simp [ii_init, hp, AyxPlugin.xmsg]
  | some fp =>
    have hne1 := errExists_ne_enter fp
    have hne1s := (errExists_ne_enter fp).symm
    have hne2 : ("Maximum path length is 259" : String) ≠ "Enter a filename" := by decide
    have hne3 : ("These characters are not allowed in the filename: /;?*\"<>|" : String)
        ≠ "Enter a filename" := by decide
    simp only [ii_init, hp, AyxPlugin.xmsg]
    by_cases h1 : fs_exists fp <;> by_cases h2 : fp.length > 259 <;>
      by_cases h3 : fp.toList.any (fun c => special_chars.contains c) <;>
      by_cases h4 : fp.length = 0 <;>
      simp [h1, h2, h3, h4, hne1, hne1s, hne2, hne3, Msg.mk.injEq]

/-- C6: `ii_close` on a sink with no column buffers (`field_lists` empty)
raises `IndexError` at `field_lists[0]` instead of closing cleanly. -/
theorem C6_close_no_buffers (s : IIState) (file : List (List String))
    (h : s.field_lists = []) : ii_close s file = Except.error PyExc.indexError := by
  simp [ii_close, h]

/-- Witness for C6 at a concrete sink on which `ii_init` was never run. -/
theorem C6_witness : ii_close (mkII (mkPlugin 2)) [] = Except.error PyExc.indexError :=
  C6_close_no_buffers (mkII (mkPlugin 2)) [] rfl

theorem setAppend_some (v : String) :
    ∀ (lists : List (List String)) (i : Nat), i < lists.length →
      ∃ r, setAppend lists i v = some r ∧ r.length = lists.length := by
  intro lists
  induction lists with
  | nil => intro i h; simp at h
  | cons l t ih =>
    intro i h
    cases i with
    | zero => exact ⟨(l ++ [v]) :: t, rfl, by simp⟩
    | succ j =>
      obtain ⟨r, hr, hlen⟩ := ih j (by simpa using h)
      exact ⟨l :: r, by simp [setAppend, hr], by simp [hlen]⟩

theorem pushFieldsFrom_ok (row : Nat → Option String) :
    ∀ (k : Nat) (lists : List (List String)) (i : Nat), i + k ≤ lists.length →
      ∃ r, pushFieldsFrom row lists i k = Except.ok r ∧ r.length = lists.length := by
  intro k
  induction k with
  | zero => intro lists i _; exact ⟨lists, rfl, rfl⟩
  | succ k ih =>
    intro lists i h
    obtain ⟨l2, hl2, hlen2⟩ := setAppend_some ((row i).getD "") lists i (by omega)
    obtain ⟨r, hr, hlenr⟩ := ih l2 (i + 1) (by omega)
    exact ⟨r, by simp [pushFieldsFrom, hl2, hr], by omega⟩

/-- C5: a flush needs a configured path.  When `str_file_path` is `None`, the
push that brings the counter to 1,000,000, and a close with more than one
buffered entry, both end in the `TypeError` raised by `open(None, 'a', ...)`
instead of completing the callback normally. -/
theorem C5_flush_requires_path :
    (∀ (s : IIState) (file : List (List String)) (row : Nat → Option String) (ri : RecordInfo),
      s.record_info_in = some ri → ri.fields.length ≤ s.field_lists.length →
      s.parent.str_file_path = none → s.counter + 1 = 1000000 →
      ii_push_record s file row = Except.error PyExc.typeError) ∧
    (∀ (s : IIState) (file : List (List String)),
      s.parent.str_file_path = none → 1 < (s.field_lists.headD []).length →
      ii_close s file = Except.error PyExc.typeError) := by
  constructor
  · intro s file row ri hri hlen hp hc
    obtain ⟨r, hr, _⟩ := pushFieldsFrom_ok row ri.fields.length s.field_lists 0 (by omega)
    simp [ii_push_record, hri, hr, hc, hp, write_lists_to_csv]
  · intro s file hp hl
    cases hfl : s.field_lists with
    | nil => rw [hfl] at hl; simp at hl
    | cons l0 rest =>
      rw [hfl] at hl
      simp only [List.headD_cons] at hl
      simp [ii_close, hfl, hp, write_lists_to_csv, hl]

/-- Witness for C5 at concrete sinks: the 1,000,000th buffered row, and a
close with one unflushed row, both with no configured path. -/
theorem C5_witness :
    ii_push_record sW5push [] r0 = Except.error PyExc.typeError ∧
    ii_close sW5close [] = Except.error PyExc.typeError :=
  ⟨C5_flush_requires_path.1 sW5push [] r0 ⟨["f"]⟩ rfl (by decide) rfl rfl,
   C5_flush_requires_path.2 sW5close [] rfl (by decide)⟩

/-- C7: with a configured path, the disallowed-character error (listing
exactly the set `/;?*"<>|`) is emitted by `ii_init` if and only if the path
contains at least one character of that set. -/
theorem C7_special_chars (s : IIState) (ri : RecordInfo) (fs_exists : String → Bool)
    (p : String) (hp : s.parent.str_file_path = some p) :
    (Msg.mk s.parent.n_tool_id MsgType.error
        "These characters are not allowed in the filename: /;?*\"<>|"
        ∈ (ii_init s ri fs_exists).2.1)
      ↔ ∃ c ∈ p.toList, c ∈ special_chars := by
  have hb : ((p.toList.any fun c => special_chars.contains c) = true)
      ↔ ∃ c ∈ p.toList, c ∈ special_chars := by
    simp
  refine Iff.trans ?_ hb
  have hne1 := errExists_ne_chars p
  have hne1s := (errExists_ne_chars p).symm
  have hne2 : ("Maximum path length is 259" : String)
      ≠ "These characters are not allowed in the filename: /;?*\"<>|" := by decide
  have hne2s := hne2.symm
  have hne4 : ("Enter a filename" : String)
      ≠ "These characters are not allowed in the filename: /;?*\"<>|" := by decide
  have hne4s := hne4.symm
  simp only [ii_init, hp, AyxPlugin.xmsg]
  by_cases h1 : fs_exists p <;> by_cases h2 : p.length > 259 <;>
    by_cases h3 : p.toList.any (fun c => special_chars.contains c) <;>
    by_cases h4 : p.length = 0 <;>
    simp [h1, h2, h3, h4, hne1, hne1s, hne2, hne2s, hne4, hne4s, Msg.mk.injEq]

/-- Witness for C7 at the concrete path `a/b`. -/
theorem C7_witness :
    (Msg.mk sW7.parent.n_tool_id MsgType.error
        "These characters are not allowed in the filename: /;?*\"<>|"
        ∈ (ii_init sW7 ⟨["f"]⟩ (fun _ => false)).2.1)
      ↔ ∃ c ∈ ("a/b" : String).toList, c ∈ special_chars :=
  C7_special_chars sW7 ⟨["f"]⟩ (fun _ => false) "a/b" rfl

/-- C8: with a configured path, the maximum-path-length error is emitted by
`ii_init` if and only if the path is longer than 259 characters. -/
theorem C8_max_length (s : IIState) (ri : RecordInfo) (fs_exists : String → Bool)
    (p : String) (hp : s.parent.str_file_path = some p) :
    (Msg.mk s.parent.n_tool_id MsgType.error "Maximum path length is 259"
        ∈ (ii_init s ri fs_exists).2.1)
      ↔ 259 < p.length := by
  have hne1 := errExists_ne_max p
  have hne1s := (errExists_ne_max p).symm
  have hne3 : ("These characters are not allowed in the filename: /;?*\"<>|" : String)
      ≠ "Maximum path length is 259" := by decide
  have hne3s := hne3.symm
  have hne4 : ("Enter a filename" : String) ≠ "Maximum path length is 259" := by decide
  have hne4s := hne4.symm
  simp only [ii_init, hp, AyxPlugin.xmsg]
  by_cases h1 : fs_exists p <;> by_cases h2 : p.length > 259 <;>
    by_cases h3 : p.toList.any (fun c => special_chars.contains c) <;>
    by_cases h4 : p.length = 0 <;>
    simp [h1, h2, h3, h4, hne1, hne1s, hne3, hne3s, hne4, hne4s, Msg.mk.injEq]

/-- Witness for C8 at a concrete 260-character path. -/
theorem C8_witness :
    (Msg.mk sW8.parent.n_tool_id MsgType.error "Maximum path length is 259"
        ∈ (ii_init sW8 ⟨["f"]⟩ (fun _ => false)).2.1)
      ↔ 259 < longPath.length :=
  C8_max_length sW8 ⟨["f"]⟩ (fun _ => false) longPath rfl

/-- C9: when the sink has at least one column buffer, `ii_close` completes
normally and emits the notice `<path>|<path> was created.` exactly when a
path is configured, whatever the buffers hold. -/
theorem C9_completion_notice (s : IIState) (file : List (List String))
    (h : s.field_lists ≠ []) :
    (∃ p s2 f2 m, s.parent.str_file_path = some p ∧
        ii_close s file = Except.ok (s2, f2, m) ∧
        Msg.mk s.parent.n_tool_id MsgType.fileOutput (p ++ "|" ++ p ++ " was created.") ∈ m)
      ↔ s.parent.str_file_path ≠ none := by
  constructor
  · rintro ⟨p, s2, f2, m, hp, -, -⟩
    rw [hp]
    simp
  · intro hne
    cases hfl : s.field_lists with
    | nil => exact absurd hfl h
    | cons l0 rest =>
      cases hp : s.parent.str_file_path with
      | none => exact absurd hp hne
      | some p =>
        by_cases hl : l0.length > 1
        · have hc : ii_close s file =
              Except.ok ({ s with field_lists := (l0 :: rest).map (fun _ => []) },
                file ++ zipRows (l0 :: rest),
                [Msg.mk s.parent.n_tool_id MsgType.fileOutput
                  (p ++ "|" ++ p ++ " was created.")]) := by
            simp [ii_close, hfl, hp, hl, write_lists_to_csv, AyxPlugin.xmsg]
          exact ⟨p, _, _, _, rfl, hc, by simp⟩
        · have hc : ii_close s file =
              Except.ok (s, file,
                [Msg.mk s.parent.n_tool_id MsgType.fileOutput
                  (p ++ "|" ++ p ++ " was created.")]) := by
            simp [ii_close, hfl, hp, hl, AyxPlugin.xmsg]
          exact ⟨p, _, _, _, rfl, hc, by simp⟩

/-- Witness for C9 at a concrete sink with one header-only buffer and the
path `out.csv`. -/
theorem C9_witness :
    (∃ p s2 f2 m, sW9.parent.str_file_path = some p ∧
        ii_close sW9 [] = Except.ok (s2, f2, m) ∧
        Msg.mk sW9.parent.n_tool_id MsgType.fileOutput (p ++ "|" ++ p ++ " was created.") ∈ m)
      ↔ sW9.parent.str_file_path ≠ none :=
  C9_completion_notice sW9 [] (by decide)

theorem foldl_min_lengths (L : Nat) :
    ∀ (ls : List (List String)) (m : Nat), (∀ l ∈ ls, l.length = L) →
      ls.foldl (fun acc t => min acc t.length) m = if ls.isEmpty then m else min m L := by
  intro ls
  induction ls with
  | nil => intro m _; rfl
  | cons a t ih =>
    intro m h
    have ha : a.length = L := h a (by simp)
    have ht : ∀ l ∈ t, l.length = L := fun l hl => h l (by simp [hl])
    simp only [List.foldl_cons, ha, ih (min m L) ht]
    cases t with
    | nil => simp
    | cons b u => simp only [List.isEmpty_cons, if_neg Bool.false_ne_true]; omega

theorem minLen_uniform (ls : List (List String)) (L : Nat) (h0 : ls ≠ [])
    (h : ∀ l ∈ ls, l.length = L) : minLen ls = L := by
  cases ls with
  | nil => exact absurd rfl h0
  | cons a t =>
    have ha : a.length = L := h a (by simp)
    have ht : ∀ l ∈ t, l.length = L := fun l hl => h l (by simp [hl])
    rw [minLen, foldl_min_lengths L t a.length ht, ha]
    cases t with
    | nil => simp
    | cons b u => simp

theorem zipRows_length (ls : List (List String)) : (zipRows ls).length = minLen ls := by
  simp [zipRows]

theorem pushFieldsFrom_cons (row : Nat → Option String) :
    ∀ (k : Nat) (a : List String) (t : List (List String)) (i : Nat),
      pushFieldsFrom row (a :: t) (i + 1) k =
        (pushFieldsFrom (fun j => row (j + 1)) t i k).map (fun r => a :: r) := by
  intro k
  induction k with
  | zero => intro a t i; rfl
  | succ k ih =>
    intro a t i
    cases hs : setAppend t i ((row (i + 1)).getD "") with
    | none => simp [pushFieldsFrom, setAppend, hs, Except.map]
    | some l2 => simp [pushFieldsFrom, setAppend, hs, ih, Except.map]

theorem pushFieldsFrom_uniform :
    ∀ (lists : List (List String)) (row : Nat → Option String) (L : Nat),
      (∀ l ∈ lists, l.length = L) →
      ∃ r, pushFieldsFrom row lists 0 lists.length = Except.ok r ∧
        r.length = lists.length ∧ ∀ l ∈ r, l.length = L + 1 := by
  intro lists
  induction lists with
  | nil => intro row L _; exact ⟨[], rfl, rfl, by simp⟩
  | cons a t ih =>
    intro row L h
    have ha : a.length = L := h a (by simp)
    have ht : ∀ l ∈ t, l.length = L := fun l hl => h l (by simp [hl])
    obtain ⟨r, hr, hrl, hrL⟩ := ih (fun j => row (j + 1)) L ht
    refine ⟨(a ++ [(row 0).getD ""]) :: r, ?_, by simp [hrl], ?_⟩
    · show pushFieldsFrom row (a :: t) 0 (t.length + 1) = _
      rw [show pushFieldsFrom row (a :: t) 0 (t.length + 1)
            = pushFieldsFrom row ((a ++ [(row 0).getD ""]) :: t) (0 + 1) t.length from rfl]
      rw [pushFieldsFrom_cons row t.length (a ++ [(row 0).getD ""]) t 0, hr]
      rfl
    · intro l hl
      rcases List.mem_cons.mp hl with hl | hl
      · rw [hl]; simp [ha]
      · exact hrL l hl

/-- Effect of one `ii_push_record` on a well-formed sink: the counter moves,
all buffers grow by one, and at the 1,000,000th row a flush empties the
buffers and appends their common length in rows to the file. -/
theorem push_step (s : IIState) (file : List (List String)) (row : Nat → Option String)
    (ri : RecordInfo) (p : String) (L : Nat)
    (hri : s.record_info_in = some ri)
    (hp : s.parent.str_file_path = some p)
    (hlen : s.field_lists.length = ri.fields.length)
    (hk : 1 ≤ ri.fields.length)
    (hL : ∀ l ∈ s.field_lists, l.length = L) :
    ∃ s2 f2, ii_push_record s file row = Except.ok (s2, f2, true) ∧
      s2.parent = s.parent ∧ s2.record_info_in = s.record_info_in ∧
      s2.field_lists.length = s.field_lists.length ∧
      (if s.counter + 1 = 1000000 then
        s2.counter = 0 ∧ (∀ l ∈ s2.field_lists, l.length = 0) ∧
          f2.length = file.length + (L + 1)
       else
        s2.counter = s.counter + 1 ∧ (∀ l ∈ s2.field_lists, l.length = L + 1) ∧
          f2 = file) := by
  obtain ⟨fl, hfl, hfll, hflL⟩ := pushFieldsFrom_uniform s.field_lists row L hL
  rw [hlen] at hfl
  by_cases hc : s.counter + 1 = 1000000
  · have hflne : fl ≠ [] := by
      intro h0
      rw [h0] at hfll
      simp at hfll
      omega
    have hmin : minLen fl = L + 1 := minLen_uniform fl (L + 1) hflne hflL
    refine ⟨{ s with counter := 0, field_lists := fl.map (fun _ => []) },
      file ++ zipRows fl, ?_, rfl, rfl, by simp [hfll], ?_⟩
    · simp [ii_push_record, hri, hfl, hc, hp, write_lists_to_csv]
    · rw [if_pos hc]
      refine ⟨rfl, ?_, ?_⟩
      · intro l hl
        rcases List.mem_map.mp hl with ⟨x, -, hx⟩
        simp [← hx]
      · simp [zipRows_length, hmin]
  · refine ⟨{ s with counter := s.counter + 1, field_lists := fl }, file, ?_, rfl, rfl,
      by simp [hfll], ?_⟩
    · simp [ii_push_record, hri, hfl, hc]
    · rw [if_neg hc]
      exact ⟨rfl, hflL, rfl⟩

/-- Buffer lengths, counter and file size after any sequence of pushes from a
state whose data matches the `N`-pushes profile. -/
theorem runPushes_spec (p : String) (ri : RecordInfo) (hk : 1 ≤ ri.fields.length) :
    ∀ (rows : List (Nat → Option String)) (N : Nat) (s : IIState) (file : List (List String)),
      s.record_info_in = some ri →
      s.parent.str_file_path = some p →
      s.field_lists.length = ri.fields.length →
      s.counter = N % 1000000 →
      (∀ l ∈ s.field_lists, l.length = lenAt N) →
      file.length = fileLenAt N →
      ∃ s2 f2, runPushes rows s file = Except.ok (s2, f2) ∧
        s2.parent = s.parent ∧
        s2.record_info_in = some ri ∧
        s2.field_lists.length = ri.fields.length ∧
        s2.counter = (N + rows.length) % 1000000 ∧
        (∀ l ∈ s2.field_lists, l.length = lenAt (N + rows.length)) ∧
        f2.length = fileLenAt (N + rows.length) := by
  intro rows
  induction rows with
  | nil =>
    intro N s file hri hp hlen hc hL hf
    exact ⟨s, file, rfl, rfl, hri, hlen, by simpa using hc, by simpa using hL,
      by simpa using hf⟩
  | cons r rest ih =>
    intro N s file hri hp hlen hc hL hf
    obtain ⟨s2, f2, hpush, hpar, hreci, hlen2, hcond⟩ :=
      push_step s file r ri p (lenAt N) hri hp hlen hk hL
    have hri2 : s2.record_info_in = some ri := by rw [hreci, hri]
    have hp2 : s2.parent.str_file_path = some p := by rw [hpar, hp]
    have hlen2' : s2.field_lists.length = ri.fields.length := by rw [hlen2, hlen]
    by_cases hflush : s.counter + 1 = 1000000
    · rw [if_pos hflush] at hcond
      obtain ⟨hc2, hL2, hf2⟩ := hcond
      have hc2' : s2.counter = (N + 1) % 1000000 := by omega
      have hlen1 : lenAt (N + 1) = 0 := by
        simp only [lenAt]
        split <;> omega
      have hL2' : ∀ l ∈ s2.field_lists, l.length = lenAt (N + 1) := by
        intro l hl
        rw [hlen1]
        exact hL2 l hl
      have hf2' : f2.length = fileLenAt (N + 1) := by
        rw [hf2, hf]
        simp only [lenAt, fileLenAt]
        split_ifs <;> omega
      obtain ⟨s3, f3, hrun, hpar3, hri3, hlen3, hc3, hL3, hf3⟩ :=
        ih (N + 1) s2 f2 hri2 hp2 hlen2' hc2' hL2' hf2'
      refine ⟨s3, f3, ?_, by rw [hpar3, hpar], hri3, hlen3, ?_, ?_, ?_⟩
      · simp [runPushes, hpush, hrun]
      · rw [List.length_cons, show N + (rest.length + 1) = N + 1 + rest.length from by omega]
        exact hc3
      · rw [List.length_cons, show N + (rest.length + 1) = N + 1 + rest.length from by omega]
        exact hL3
      · rw [List.length_cons, show N + (rest.length + 1) = N + 1 + rest.length from by omega]
        exact hf3
    · rw [if_neg hflush] at hcond
      obtain ⟨hc2, hL2, hf2⟩ := hcond
      have hc2' : s2.counter = (N + 1) % 1000000 := by omega
      have hlen1 : lenAt (N + 1) = lenAt N + 1 := by
        simp only [lenAt]
        split_ifs <;> omega
      have hL2' : ∀ l ∈ s2.field_lists, l.length = lenAt (N + 1) := by
        intro l hl
        rw [hlen1]
        exact hL2 l hl
      have hf2' : f2.length = fileLenAt (N + 1) := by
        rw [hf2, hf]
        simp only [fileLenAt]
        split_ifs <;> omega
      obtain ⟨s3, f3, hrun, hpar3, hri3, hlen3, hc3, hL3, hf3⟩ :=
        ih (N + 1) s2 f2 hri2 hp2 hlen2' hc2' hL2' hf2'
      refine ⟨s3, f3, ?_, by rw [hpar3, hpar], hri3, hlen3, ?_, ?_, ?_⟩
      · simp [runPushes, hpush, hrun]
      · rw [List.length_cons, show N + (rest.length + 1) = N + 1 + rest.length from by omega]
        exact hc3
      · rw [List.length_cons, show N + (rest.length + 1) = N + 1 + rest.length from by omega]
        exact hL3
      · rw [List.length_cons, show N + (rest.length + 1) = N + 1 + rest.length from by omega]
        exact hf3

theorem postInit_parts (path : String) (names : List String) (fs_exists : String → Bool) :
    (postInit path names fs_exists).record_info_in = some ⟨names⟩ ∧
    (postInit path names fs_exists).parent.str_file_path = some path ∧
    (postInit path names fs_exists).field_lists = names.map (fun n => [n]) ∧
    (postInit path names fs_exists).counter = 0 := by
  refine ⟨rfl, rfl, ?_, rfl⟩
  simp [postInit, ii_init, mkII]

/-- Buffers either survive `ii_close` untouched or are all cleared by its
flush. -/
theorem ii_close_fieldLists (s : IIState) (file : List (List String))
    (s3 : IIState) (f3 : List (List String)) (m : List Msg)
    (h : ii_close s file = Except.ok (s3, f3, m)) :
    s3.field_lists = s.field_lists ∨ s3.field_lists = s.field_lists.map (fun _ => []) := by
  cases hfl : s.field_lists with
  | nil => simp [ii_close, hfl] at h
  | cons l0 rest =>
    by_cases hl : l0.length > 1
    · cases hp : s.parent.str_file_path with
      | none => simp [ii_close, hfl, hl, hp, write_lists_to_csv] at h
      | some p =>
        simp [ii_close, hfl, hl, hp, write_lists_to_csv, AyxPlugin.xmsg] at h
        right
        rw [← h.1]
        simp
    · cases hp : s.parent.str_file_path with
      | none =>
        simp [ii_close, hfl, hl, hp] at h
        left
        rw [← h.1]
        exact hfl
      | some p =>
        simp [ii_close, hfl, hl, hp, AyxPlugin.xmsg] at h
        left
        rw [← h.1]
        exact hfl

/-- C2 (amended): from a fresh `ii_init` state with at least one field and a
configured path, every sequence of pushes succeeds and leaves all column
buffers with one common length: rows-received-since-last-flush plus one (the
header) while no flush has happened yet, and exactly
rows-received-since-last-flush afterwards (a flush clears the headers too).
`ii_update_progress` changes nothing, and after `ii_close` the buffers still
all share one length. -/
theorem C2_buffer_length_invariant (path : String) (names : List String)
    (fs_exists : String → Bool) (hk : 1 ≤ names.length)
    (rows : List (Nat → Option String)) :
    ∃ s2 f2, runPushes rows (postInit path names fs_exists) [] = Except.ok (s2, f2) ∧
      s2.field_lists.length = names.length ∧
      s2.counter = rows.length % 1000000 ∧
      (∀ l ∈ s2.field_lists, l.length =
        if rows.length < 1000000 then s2.counter + 1 else s2.counter) ∧
      (∀ d, (ii_update_progress s2 d).1 = s2) ∧
      (∀ file2 s3 f3 m, ii_close s2 file2 = Except.ok (s3, f3, m) →
        ∀ l1 ∈ s3.field_lists, ∀ l2 ∈ s3.field_lists, l1.length = l2.length) := by
  obtain ⟨hri, hp, hfl, hc⟩ := postInit_parts path names fs_exists
  have hlen : (postInit path names fs_exists).field_lists.length
      = (⟨names⟩ : RecordInfo).fields.length := by
    rw [hfl]
    simp
  have hL0 : ∀ l ∈ (postInit path names fs_exists).field_lists, l.length = lenAt 0 := by
    rw [hfl]
    intro l hl
    rcases List.mem_map.mp hl with ⟨x, -, hx⟩
    simp [← hx, lenAt]
  obtain ⟨s2, f2, hrun, hpar2, hri2, hlen2, hc2, hL2, hf2⟩ :=
    runPushes_spec path ⟨names⟩ (by simpa using hk) rows 0 (postInit path names fs_exists) []
      hri hp hlen (by simpa using hc) hL0 (by simp [fileLenAt])
  refine ⟨s2, f2, hrun, by simpa using hlen2, by simpa using hc2, ?_, fun d => rfl, ?_⟩
  · intro l hl
    have hx := hL2 l hl
    simp only [Nat.zero_add] at hx hc2
    rw [hx]
    simp only [lenAt]
    split_ifs <;> omega
  · intro file2 s3 f3 m hclose l1 hl1 l2 hl2
    rcases ii_close_fieldLists s2 file2 s3 f3 m hclose with hsame | hclear
    · rw [hsame] at hl1 hl2
      rw [hL2 l1 hl1, hL2 l2 hl2]
    · rw [hclear] at hl1 hl2
      rcases List.mem_map.mp hl1 with ⟨x1, -, hx1⟩
      rcases List.mem_map.mp hl2 with ⟨x2, -, hx2⟩
      rw [← hx1, ← hx2]

/-- C2 (counterexample): after exactly 1,000,000 pushes the flush has emptied
every buffer, so the buffer length is 0 while rows-since-last-flush plus one
is 1: the claimed invariant fails at this reachable state. -/
theorem C2_counterexample :
    ∃ s2 f2,
      runPushes (List.replicate 1000000 r0) (postInit "out.csv" ["f"] (fun _ => false)) []
        = Except.ok (s2, f2) ∧
      ¬ (∀ l ∈ s2.field_lists, l.length = s2.counter + 1) := by
  obtain ⟨hri, hp, hfl, hc⟩ := postInit_parts "out.csv" ["f"] (fun _ => false)
  have hlen : (postInit "out.csv" ["f"] (fun _ => false)).field_lists.length
      = ((⟨["f"]⟩ : RecordInfo)).fields.length := by
    rw [hfl]
    simp
  have hL0 : ∀ l ∈ (postInit "out.csv" ["f"] (fun _ => false)).field_lists,
      l.length = lenAt 0 := by
    rw [hfl]
    intro l hl
    rcases List.mem_map.mp hl with ⟨x, -, hx⟩
    simp [← hx, lenAt]
  obtain ⟨s2, f2, hrun, -, -, hlen2, hc2, hL2, -⟩ :=
    runPushes_spec "out.csv" ⟨["f"]⟩ (by simp) (List.replicate 1000000 r0) 0
      (postInit "out.csv" ["f"] (fun _ => false)) [] hri hp hlen (by simpa using hc) hL0
      (by simp [fileLenAt])
  refine ⟨s2, f2, hrun, ?_⟩
  intro hAll
  have hone : s2.field_lists.length = 1 := by simpa using hlen2
  obtain ⟨l, hl⟩ := List.length_eq_one.mp hone
  have h1 := hAll l (by simp [hl])
  have h0 := hL2 l (by simp [hl])
  rw [List.length_replicate] at h0
  have hlen0 : lenAt (0 + 1000000) = 0 := by
    simp only [lenAt]
    norm_num
  rw [hlen0] at h0
  have hcz : s2.counter = 0 := by
    rw [hc2, List.length_replicate]
  omega

theorem zipRows_single (l : List String) : zipRows [l] = l.map (fun x => [x]) := by
  have hm : minLen [l] = l.length := rfl
  apply List.ext_getElem
  · simp [zipRows, hm]
  · intro i h1 h2
    simp only [zipRows, hm, List.getElem_map, List.getElem_range, List.map_cons, List.map_nil]
    have hi : i < l.length := by simpa using h2
    rw [List.getD_eq_getElem?_getD, List.getElem?_eq_getElem hi]
    rfl

theorem replicate_snoc (n : Nat) (a : String) :
    List.replicate n a ++ [a] = List.replicate (n + 1) a :=
  (List.replicate_succ' n a).symm

theorem colAt_append_one (N : Nat) (hc : N % 1000000 + 1 = 1000000) :
    colAt N ++ [""] =
      if N < 1000000 then "f" :: List.replicate 1000000 ""
      else List.replicate 1000000 "" := by
  have h9 : (999999 : Nat) + 1 = 1000000 := by norm_num
  simp only [colAt]
  by_cases hlt : N < 1000000
  · rw [if_pos hlt, if_pos hlt]
    have hN9 : N = 999999 := by omega
    subst hN9
    rw [List.cons_append, replicate_snoc, h9]
  · rw [if_neg hlt, if_neg hlt, show N % 1000000 = 999999 from by omega,
      replicate_snoc, h9]

theorem flush_file_eq (N : Nat) (hc : N % 1000000 + 1 = 1000000) :
    fileAt1 N ++ (colAt N ++ [""]).map (fun x => [x]) = fileAt1 (N + 1) := by
  rw [colAt_append_one N hc]
  by_cases hlt : N < 1000000
  · rw [if_pos hlt]
    have hN9 : N = 999999 := by omega
    subst hN9
    simp only [fileAt1]
    rw [if_pos (by norm_num : (999999 : Nat) < 1000000),
      if_neg (by norm_num : ¬ (999999 + 1 < 1000000))]
    rw [List.map_cons, List.map_replicate, List.nil_append]
  · rw [if_neg hlt]
    simp only [fileAt1]
    rw [if_neg hlt, if_neg (by omega : ¬ (N + 1 < 1000000))]
    rw [List.map_replicate, List.cons_append, ← List.replicate_add,
      show 1000000 * (N / 1000000) + 1000000 = 1000000 * ((N + 1) / 1000000) from by omega]

/-- One push of the all-null record on the one-field stream moves the profile
from `N` to `N + 1`. -/
theorem push_one (N : Nat) :
    ii_push_record (S1 N) (fileAt1 N) r0 = Except.ok (S1 (N + 1), fileAt1 (N + 1), true) := by
  have hpf : pushFieldsFrom r0 [colAt N] 0 (["f"] : List String).length
      = Except.ok [colAt N ++ [""]] := rfl
  by_cases hc : N % 1000000 + 1 = 1000000
  · have hcol0 : colAt (N + 1) = [] := by
      simp only [colAt]
      rw [if_neg (by omega : ¬ (N + 1 < 1000000)),
        show (N + 1) % 1000000 = 0 from by omega, List.replicate_zero]
    have hcnt : (N + 1) % 1000000 = 0 := by omega
    have hfile := flush_file_eq N hc
    have hzip := zipRows_single (colAt N ++ [""])
    simp only [ii_push_record, S1, hpf, write_lists_to_csv, P1]
    rw [if_pos hc, hcol0, hcnt]
    simp only [List.map_cons, List.map_nil]
    rw [hzip, hfile]
  · have hcol : colAt (N + 1) = colAt N ++ [""] := by
      simp only [colAt]
      by_cases hlt : N < 1000000
      · by_cases hlt1 : N + 1 < 1000000
        · rw [if_pos hlt, if_pos hlt1, List.cons_append, replicate_snoc]
        · exact absurd (by omega : N % 1000000 + 1 = 1000000) hc
      · rw [if_neg hlt, if_neg (by omega : ¬ (N + 1 < 1000000)),
          show (N + 1) % 1000000 = N % 1000000 + 1 from by omega, replicate_snoc]
    have hcnt : (N + 1) % 1000000 = N % 1000000 + 1 := by omega
    have hfileeq : fileAt1 (N + 1) = fileAt1 N := by
      simp only [fileAt1]
      by_cases hlt1 : N + 1 < 1000000
      · rw [if_pos hlt1, if_pos (by omega : N < 1000000)]
      · by_cases hlt : N < 1000000
        · exact absurd (by omega : N % 1000000 + 1 = 1000000) hc
        · rw [if_neg hlt1, if_neg hlt,
            show 1000000 * ((N + 1) / 1000000) = 1000000 * (N / 1000000) from by omega]
    simp only [ii_push_record, S1, hpf]
    rw [if_neg hc, hcol, hcnt, hfileeq]

/-- Any number of all-null pushes advances the one-field stream profile. -/
theorem runPushes_replicate_one :
    ∀ (n N : Nat), runPushes (List.replicate n r0) (S1 N) (fileAt1 N)
      = Except.ok (S1 (N + n), fileAt1 (N + n)) := by
  intro n
  induction n with
  | zero => intro N; rfl
  | succ n ih =>
    intro N
    rw [List.replicate_succ]
    show (match ii_push_record (S1 N) (fileAt1 N) r0 with
      | Except.error e => Except.error e
      | Except.ok (s2, f2, _) => runPushes (List.replicate n r0) s2 f2) = _
    rw [push_one N]
    show runPushes (List.replicate n r0) (S1 (N + 1)) (fileAt1 (N + 1)) = _
    rw [ih (N + 1), show N + 1 + n = N + (n + 1) from by omega]

/-- Unfolding of one full stream run whose `pi_init` and pushes succeed. -/
theorem runStream_ok (find : Option (Option String)) (names : List String)
    (fs_exists : String → Bool) (rows : List (Nat → Option String))
    (plugin : AyxPlugin) (s2 : IIState) (f2 : List (List String))
    (h1 : (pi_init (mkPlugin 1) "" find).2 = Except.ok plugin)
    (h2 : runPushes rows (ii_init (mkII plugin) ⟨names⟩ fs_exists).1 [] = Except.ok (s2, f2)) :
    runStream find names fs_exists rows = ii_close s2 f2 := by
  simp only [runStream, h1, h2]

/-- C1 (evaluation at the failing input): a one-field stream of 1,000,001
records over path `out.csv` runs to completion, but the file ends with one
header row and only 1,000,000 data rows; the 1,000,001st record is still
sitting in the buffer when the stream is closed, because the close-flush
guard `len(field_lists[0]) > 1` is false once flushing has cleared the
header. -/
theorem C1_last_record_never_written :
    ∃ s f m, runStream (some (some "out.csv")) ["f"] (fun _ => false)
        (List.replicate 1000001 r0) = Except.ok (s, f, m) ∧
      f = ["f"] :: List.replicate 1000000 [""] ∧
      s.field_lists = [[""]] ∧
      m = [Msg.mk 1 MsgType.fileOutput "out.csv|out.csv was created."] := by
  have h3 : runPushes (List.replicate 1000001 r0) (S1 0) [] =
      Except.ok (S1 1000001, fileAt1 1000001) := runPushes_replicate_one 1000001 0
  have h3x : runPushes (List.replicate 1000001 r0)
      (ii_init (mkII P1) ⟨["f"]⟩ (fun _ => false)).1 [] =
      Except.ok (S1 1000001, fileAt1 1000001) := h3
  have hcol : colAt 1000001 = [""] := by
    simp only [colAt]
    rw [if_neg (by norm_num), show (1000001 : Nat) % 1000000 = 1 from by norm_num,
      List.replicate_one]
  have hfile : fileAt1 1000001 = ["f"] :: List.replicate 1000000 [""] := by
    simp only [fileAt1]
    rw [if_neg (by norm_num), show (1000001 : Nat) / 1000000 = 1 from by norm_num,
      show 1000000 * 1 = 1000000 from by norm_num]
  have hclose : ii_close (S1 1000001) (fileAt1 1000001) =
      Except.ok (S1 1000001, fileAt1 1000001,
        [Msg.mk 1 MsgType.fileOutput "out.csv|out.csv was created."]) := by
    simp only [ii_close, S1, hcol, P1]
    rfl
  refine ⟨S1 1000001, fileAt1 1000001,
    [Msg.mk 1 MsgType.fileOutput "out.csv|out.csv was created."], ?_, hfile, ?_, rfl⟩
  · rw [runStream_ok (some (some "out.csv")) ["f"] (fun _ => false)
      (List.replicate 1000001 r0) P1 (S1 1000001) (fileAt1 1000001) rfl h3x, hclose]
  · simp only [S1, hcol]

/-- Witness for the amended C2 at a concrete one-field stream. -/
theorem C2_witness :
    ∃ s2 f2, runPushes [] (postInit "w.csv" ["f"] (fun _ => false)) [] = Except.ok (s2, f2) ∧
      s2.field_lists.length = (["f"] : List String).length ∧
      s2.counter = ([] : List (Nat → Option String)).length % 1000000 ∧
      (∀ l ∈ s2.field_lists, l.length =
        if ([] : List (Nat → Option String)).length < 1000000 then s2.counter + 1
        else s2.counter) ∧
      (∀ d, (ii_update_progress s2 d).1 = s2) ∧
      (∀ file2 s3 f3 m, ii_close s2 file2 = Except.ok (s3, f3, m) →
        ∀ l1 ∈ s3.field_lists, ∀ l2 ∈ s3.field_lists, l1.length = l2.length) :=
  C2_buffer_length_invariant "w.csv" ["f"] (fun _ => false) (by decide) []

/-- C10: `ii_update_progress` forwards exactly the received fraction (with
the tool id) to the host's progress channel and leaves the whole sink state,
hence every plugin and sink field, unchanged. -/
theorem C10_progress_pure (s : IIState) (d_percent : Float) :
    (ii_update_progress s d_percent).1 = s ∧
    (ii_update_progress s d_percent).2.1 = s.parent.n_tool_id ∧
    (ii_update_progress s d_percent).2.2 = d_percent :=
  ⟨rfl, rfl, rfl⟩

end PyOut
